import Mathlib

/-!
Verification of the Travel API trip-planning service (src/main.py).

The Python source is shallowly embedded: dynamic Python values flowing through
the normalization helpers are modelled by `PyVal`; money amounts are modelled
by `ℚ`; a function that can raise an exception returns `Except String _`;
calendar dates are modelled by their day ordinal (`ℤ`), so the pandas
day-difference used for `nights` is integer subtraction.  The external
flight/hotel collaborators (`get_flights` / `get_hotels`) are out of scope and
are modelled as an environment `Env` supplying each call's outcome.
-/

set_option maxHeartbeats 1000000

deriving instance DecidableEq for Except

/-- A dynamic Python value as it can reach the normalization helpers:
`None`, an `int`, a `float` (modelled exactly by `ℚ`), a `str`, or any
other object (list, dict, ...). -/
inductive PyVal where
  | none
  | int (n : ℤ)
  | float (q : ℚ)
  | str (s : String)
  | other
deriving DecidableEq

/-- Value of a digit string, most significant first (`foldl` like Python's
left-to-right parse); the empty list gives 0. -/
def digitsToNat (l : List Char) : ℕ :=
  l.foldl (fun a c => 10 * a + (c.toNat - 48)) 0

/-- Characters matched by the regex class `[\d,.]` in `_parse_price`. -/
def numChar (c : Char) : Bool :=
  c.isDigit || c == ',' || c == '.'

/-- `re.search(r"[\d,.]+", s)`: the first maximal run of characters from the
class, or `none` when no such character occurs. -/
def firstNumRun (s : String) : Option (List Char) :=
  let run := (s.toList.dropWhile (fun c => ! numChar c)).takeWhile numChar
  if run.isEmpty then Option.none else some run

/-- Python `float(str)` restricted to the character set reachable here
(digits and dots after comma removal): succeeds iff there is at least one
digit, at most one dot, and nothing else; value is integer part plus
fractional part.  `float("")` and `float(".")` fail (ValueError). -/
def parseFloat? (l : List Char) : Option ℚ :=
  if (l.count '.') ≤ 1 ∧ l.any Char.isDigit ∧ l.all (fun c => Char.isDigit c || c == '.') then
    let ip := l.takeWhile (fun c => c ≠ '.')
    let fp := (l.dropWhile (fun c => c ≠ '.')).drop 1
    some ((digitsToNat ip : ℚ) + (digitsToNat fp : ℚ) / (10 : ℚ) ^ fp.length)
  else Option.none

/-- Nonempty all-digit parse used by the model of Python `int(str)`. -/
def parseNatDigits? (l : List Char) : Option ℕ :=
  if l ≠ [] ∧ l.all Char.isDigit then some (digitsToNat l) else Option.none

/-- Strip leading and trailing spaces (the whitespace Python `int(str)`
tolerates around the number). -/
def trimSpaces (l : List Char) : List Char :=
  ((l.dropWhile (fun c => c == ' ')).reverse.dropWhile (fun c => c == ' ')).reverse

/-- Python `int(str)`: optional surrounding whitespace, optional sign,
nonempty digit sequence; anything else raises (here: `none`). -/
def parseInt? (s : String) : Option ℤ :=
  match trimSpaces s.toList with
  | [] => Option.none
  | c :: cs =>
    if c = '-' then (parseNatDigits? cs).map (fun n => -(n : ℤ))
    else if c = '+' then (parseNatDigits? cs).map (fun n => (n : ℤ))
    else (parseNatDigits? (c :: cs)).map (fun n => (n : ℤ))

/-- `_parse_price` (src/main.py lines 12-20).  For a string: find the first
`[\d,.]+` run; no run gives `None`; otherwise strip commas and call
`float(...)`, which RAISES `ValueError` when the remaining text is not a
valid decimal (e.g. the run is only separators).  Every non-string input is
returned unchanged.  The `Except.error` branch models the uncaught raise. -/
def _parse_price : PyVal → Except String PyVal
  | PyVal.str s =>
    match firstNumRun s with
    | Option.none => Except.ok PyVal.none
    | some run =>
      match parseFloat? (run.filter (fun c => c ≠ ',')) with
      | some q => Except.ok (PyVal.float q)
      | Option.none => Except.error "ValueError"
  | v => Except.ok v

/-- `_parse_stops` (src/main.py lines 22-31).  `None` passes through, ints
pass through, strings go through `int(...)`, floats are truncated toward
zero by `int(...)`, and any `ValueError`/`TypeError` is caught and mapped to
`None` — the function never raises. -/
def _parse_stops : PyVal → PyVal
  | PyVal.none => PyVal.none
  | PyVal.int n => PyVal.int n
  | PyVal.float q => PyVal.int (Int.tdiv q.num (q.den : ℤ))
  | PyVal.str s =>
    match parseInt? s with
    | some n => PyVal.int n
    | Option.none => PyVal.none
  | PyVal.other => PyVal.none

/-- Raw flight item as delivered by the flight collaborator; fields read via
`getattr(f, _, None)` are optional, `price` and `stops` are arbitrary
dynamic values that go through the normalization helpers. -/
structure RawFlight where
  name : String
  departure : String
  arrival : String
  arrival_time_ahead : Option String := Option.none
  duration : Option String := Option.none
  stops : PyVal := PyVal.none
  delay : Option String := Option.none
  price : PyVal := PyVal.none
  is_best : Option Bool := Option.none
deriving DecidableEq

/-- The `FlightInfo` pydantic model (src/main.py lines 73-82). -/
structure FlightInfo where
  name : String
  departure : String
  arrival : String
  arrival_time_ahead : Option String := Option.none
  duration : Option String := Option.none
  stops : Option ℤ := Option.none
  delay : Option String := Option.none
  price : Option ℚ := Option.none
  is_best : Option Bool := Option.none
deriving DecidableEq

/-- The `HotelInfo` pydantic model (src/main.py lines 48-53). -/
structure HotelInfo where
  name : String
  price : Option ℚ := Option.none
  rating : Option ℚ := Option.none
  url : Option String := Option.none
  amenities : Option (List String) := Option.none
deriving DecidableEq

/-- The `HotelPreferences` pydantic model (src/main.py lines 88-91). -/
structure HotelPreferences where
  star_rating : Option ℤ := Option.none
  max_price_per_night : Option ℚ := Option.none
  amenities : Option (List String) := Option.none
deriving DecidableEq

/-- Pydantic validation of the `Optional[float]` price field on the output of
`_parse_price`: `None` and numbers are accepted (ints coerced to float),
anything else is a `ValidationError`.  (`_parse_price` never returns a
string, so only `other` can actually hit the error branch.) -/
def pyToOptFloat : PyVal → Except String (Option ℚ)
  | PyVal.none => Except.ok Option.none
  | PyVal.int n => Except.ok (some (n : ℚ))
  | PyVal.float q => Except.ok (some q)
  | PyVal.str _ => Except.error "ValidationError"
  | PyVal.other => Except.error "ValidationError"

/-- The output of `_parse_stops` as the `Optional[int]` stops field. -/
def stopsToOpt : PyVal → Option ℤ
  | PyVal.int n => some n
  | _ => Option.none

/-- Construction of one `FlightInfo` from a raw collaborator item
(src/main.py lines 174-184 / 217-227): a raise from `_parse_price` (or a
pydantic rejection of its value) aborts the whole comprehension. -/
def mkFlightInfo (f : RawFlight) : Except String FlightInfo :=
  match _parse_price f.price with
  | Except.error e => Except.error e
  | Except.ok pv =>
    match pyToOptFloat pv with
    | Except.error e => Except.error e
    | Except.ok p =>
      Except.ok { name := f.name, departure := f.departure, arrival := f.arrival,
                  arrival_time_ahead := f.arrival_time_ahead, duration := f.duration,
                  stops := stopsToOpt (_parse_stops f.stops), delay := f.delay,
                  price := p, is_best := f.is_best }

example : _parse_price (PyVal.str "$1,234.50") = Except.ok (PyVal.float (1234.5 : ℚ)) := by
  have h1 : firstNumRun "$1,234.50" = some ['1', ',', '2', '3', '4', '.', '5', '0'] := by decide
  have h2 : digitsToNat ['1', '2', '3', '4'] = 1234 := by decide
  have h3 : digitsToNat ['5', '0'] = 50 := by decide
  simp +decide [_parse_price, h1, parseFloat?, h2, h3]
  norm_num
example : _parse_price (PyVal.str "N/A") = Except.ok PyVal.none := by decide
example : _parse_price (PyVal.str ",") = Except.error "ValueError" := by decide
example : _parse_price PyVal.none = Except.ok PyVal.none := by decide
example : _parse_stops (PyVal.str "2") = PyVal.int 2 := by decide
example : _parse_stops (PyVal.str "nonstop") = PyVal.none := by decide

/-! ## Best-by-price selection

`min(generator-with-non-null-price, key=lambda x: x.price, default=None)`
as used at src/main.py lines 229, 265-268 and 306.  Python's `min` scans
left to right and replaces the current best only on a strictly smaller key,
so the first occurrence of the minimum is kept. -/

/-- One left-to-right scan of Python's `min` with `key`: elements whose
price is `None` are skipped (they were filtered out of the generator), a
priced element replaces the current best only when strictly cheaper. -/
def minLoop (price : α → Option ℚ) : Option α → List α → Option α
  | best, [] => best
  | best, x :: xs =>
    match price x with
    | Option.none => minLoop price best xs
    | some p =>
      match best with
      | Option.none => minLoop price (some x) xs
      | some b =>
        match price b with
        | Option.none => minLoop price (some x) xs
        | some q => if p < q then minLoop price (some x) xs else minLoop price best xs

/-- `min((f for f in flights if f.price is not None), key=..., default=None)`. -/
def bestBy (price : α → Option ℚ) (l : List α) : Option α :=
  minLoop price Option.none l

def flightPrice (f : FlightInfo) : Option ℚ := f.price

def hotelPrice (h : HotelInfo) : Option ℚ := h.price

lemma minLoop_ne_none_of_acc (price : α → Option ℚ) :
    ∀ (l : List α) (b : α), minLoop price (some b) l ≠ Option.none := by
  intro l
  induction l with
  | nil => intro b h; exact Option.noConfusion h
  | cons x xs ih =>
    intro b
    cases hp : price x with
    | none => simpa only [minLoop, hp] using ih b
    | some p =>
      cases hq : price b with
      | none => simpa only [minLoop, hp, hq] using ih x
      | some q =>
        simp only [minLoop, hp, hq]
        by_cases hlt : p < q
        · rw [if_pos hlt]; exact ih x
        · rw [if_neg hlt]; exact ih b

lemma minLoop_eq_none_iff (price : α → Option ℚ) :
    ∀ (l : List α) (b : Option α),
      minLoop price b l = Option.none ↔ (b = Option.none ∧ ∀ x ∈ l, price x = Option.none) := by
  intro l
  induction l with
  | nil => intro b; simp [minLoop]
  | cons x xs ih =>
    intro b
    cases hp : price x with
    | none =>
      simp only [minLoop, hp]
      rw [ih b]
      constructor
      · rintro ⟨hb, hall⟩
        exact ⟨hb, by
          intro y hy
          rcases List.mem_cons.mp hy with rfl | hy
          · exact hp
          · exact hall y hy⟩
      · rintro ⟨hb, hall⟩
        exact ⟨hb, fun y hy => hall y (List.mem_cons_of_mem _ hy)⟩
    | some p =>
      constructor
      · intro h
        exfalso
        cases b with
        | none =>
          simp only [minLoop, hp] at h
          exact minLoop_ne_none_of_acc price xs x h
        | some bb =>
          cases hq : price bb with
          | none =>
            simp only [minLoop, hp, hq] at h
            exact minLoop_ne_none_of_acc price xs x h
          | some q =>
            simp only [minLoop, hp, hq] at h
            by_cases hlt : p < q
            · rw [if_pos hlt] at h; exact minLoop_ne_none_of_acc price xs x h
            · rw [if_neg hlt] at h; exact minLoop_ne_none_of_acc price xs bb h
      · rintro ⟨hb, hall⟩
        exact absurd (hall x (List.mem_cons_self x xs)) (by simp [hp])

lemma minLoop_min (price : α → Option ℚ) :
    ∀ (l : List α) (b : Option α) (r : α) (p : ℚ),
      minLoop price b l = some r → price r = some p →
      (∀ x ∈ l, ∀ q, price x = some q → p ≤ q) ∧
      (∀ y, b = some y → ∀ q, price y = some q → p ≤ q) := by
  intro l
  induction l with
  | nil =>
    intro b r p h hp
    simp only [minLoop] at h
    subst h
    refine ⟨by simp, ?_⟩
    intro y hy q hq
    cases Option.some.inj hy
    rw [hp] at hq
    exact le_of_eq (Option.some.inj hq)
  | cons x xs ih =>
    intro b r p h hp
    cases hx : price x with
    | none =>
      simp only [minLoop, hx] at h
      rcases ih b r p h hp with ⟨hl, hb⟩
      refine ⟨?_, hb⟩
      intro y hy q hq
      rcases List.mem_cons.mp hy with rfl | hy
      · rw [hx] at hq; exact Option.noConfusion hq
      · exact hl y hy q hq
    | some px =>
      have step : minLoop price (some x) xs = some r →
          (∀ y ∈ x :: xs, ∀ q, price y = some q → p ≤ q) := by
        intro h2
        rcases ih (some x) r p h2 hp with ⟨hl, hb⟩
        intro y hy q hq
        rcases List.mem_cons.mp hy with rfl | hy
        · exact hb y rfl q hq
        · exact hl y hy q hq
      cases b with
      | none =>
        simp only [minLoop, hx] at h
        refine ⟨step h, ?_⟩
        intro y h0
        exact absurd h0 (by simp)
      | some bb =>
        cases hbb : price bb with
        | none =>
          simp only [minLoop, hx, hbb] at h
          refine ⟨step h, ?_⟩
          intro y hy q hq
          cases Option.some.inj hy
          rw [hbb] at hq
          exact Option.noConfusion hq
        | some qb =>
          simp only [minLoop, hx, hbb] at h
          by_cases hlt : px < qb
          · rw [if_pos hlt] at h
            have hppx : p ≤ px := (ih (some x) r p h hp).2 x rfl px hx
            refine ⟨step h, ?_⟩
            intro y hy q hq
            cases Option.some.inj hy
            rw [hbb] at hq
            cases Option.some.inj hq
            exact le_of_lt (lt_of_le_of_lt hppx hlt)
          · rw [if_neg hlt] at h
            rcases ih (some bb) r p h hp with ⟨hl, hb⟩
            have hpqb : p ≤ qb := hb bb rfl qb hbb
            refine ⟨?_, ?_⟩
            · intro y hy q hq
              rcases List.mem_cons.mp hy with rfl | hy
              · rw [hx] at hq
                cases Option.some.inj hq
                exact le_trans hpqb (not_lt.mp hlt)
              · exact hl y hy q hq
            · intro y hy q hq
              cases Option.some.inj hy
              rw [hbb] at hq
              cases Option.some.inj hq
              exact hpqb

lemma minLoop_first (price : α → Option ℚ) :
    ∀ (l : List α) (b : Option α) (r : α) (p : ℚ),
      minLoop price b l = some r → price r = some p →
      b = some r ∨
      (∃ l₁ l₂, l = l₁ ++ r :: l₂ ∧ (∀ x ∈ l₁, ∀ q, price x = some q → p < q) ∧
        (∀ y, b = some y → ∀ q, price y = some q → p < q)) := by
  intro l
  induction l with
  | nil =>
    intro b r p h hp
    left
    simpa only [minLoop] using h
  | cons x xs ih =>
    intro b r p h hp
    cases hx : price x with
    | none =>
      simp only [minLoop, hx] at h
      rcases ih b r p h hp with hb | ⟨l₁, l₂, hsplit, hstrict, hbstrict⟩
      · exact Or.inl hb
      · refine Or.inr ⟨x :: l₁, l₂, by rw [hsplit, List.cons_append], ?_, hbstrict⟩
        intro y hy q hq
        rcases List.mem_cons.mp hy with rfl | hy
        · rw [hx] at hq; exact Option.noConfusion hq
        · exact hstrict y hy q hq
    | some px =>
      have adopt : minLoop price (some x) xs = some r →
          (∃ l₁ l₂, x :: xs = l₁ ++ r :: l₂ ∧ (∀ y ∈ l₁, ∀ q, price y = some q → p < q)) ∧
            p ≤ px := by
        intro h2
        rcases ih (some x) r p h2 hp with hb | ⟨l₁, l₂, hsplit, hstrict, hbstrict⟩
        · have hxr := Option.some.inj hb
          subst hxr
          constructor
          · exact ⟨[], xs, rfl, by simp⟩
          · rw [hp] at hx
            exact le_of_eq (Option.some.inj hx)
        · have hpx : p < px := hbstrict x rfl px hx
          constructor
          · refine ⟨x :: l₁, l₂, by rw [hsplit, List.cons_append], ?_⟩
            intro y hy q hq
            rcases List.mem_cons.mp hy with rfl | hy
            · rw [hx] at hq
              cases Option.some.inj hq
              exact hpx
            · exact hstrict y hy q hq
          · exact le_of_lt hpx
      cases b with
      | none =>
        simp only [minLoop, hx] at h
        rcases adopt h with ⟨⟨l₁, l₂, hsplit, hstrict⟩, -⟩
        refine Or.inr ⟨l₁, l₂, hsplit, hstrict, ?_⟩
        intro y h0
        exact absurd h0 (by simp)
      | some bb =>
        cases hbb : price bb with
        | none =>
          simp only [minLoop, hx, hbb] at h
          rcases adopt h with ⟨⟨l₁, l₂, hsplit, hstrict⟩, -⟩
          refine Or.inr ⟨l₁, l₂, hsplit, hstrict, ?_⟩
          intro y hy q hq
          cases Option.some.inj hy
          rw [hbb] at hq
          exact Option.noConfusion hq
        | some qb =>
          simp only [minLoop, hx, hbb] at h
          by_cases hlt : px < qb
          · rw [if_pos hlt] at h
            rcases adopt h with ⟨⟨l₁, l₂, hsplit, hstrict⟩, hple⟩
            refine Or.inr ⟨l₁, l₂, hsplit, hstrict, ?_⟩
            intro y hy q hq
            cases Option.some.inj hy
            rw [hbb] at hq
            cases Option.some.inj hq
            exact lt_of_le_of_lt hple hlt
          · rw [if_neg hlt] at h
            rcases ih (some bb) r p h hp with hb | ⟨l₁, l₂, hsplit, hstrict, hbstrict⟩
            · exact Or.inl hb
            · have hpqb : p < qb := hbstrict bb rfl qb hbb
              refine Or.inr ⟨x :: l₁, l₂, by rw [hsplit, List.cons_append], ?_, hbstrict⟩
              intro y hy q hq
              rcases List.mem_cons.mp hy with rfl | hy
              · rw [hx] at hq
                cases Option.some.inj hq
                exact lt_of_lt_of_le hpqb (not_lt.mp hlt)
              · exact hstrict y hy q hq

lemma minLoop_price_isSome (price : α → Option ℚ) :
    ∀ (l : List α) (b : Option α) (r : α),
      minLoop price b l = some r → (price r).isSome = true ∨ b = some r := by
  intro l
  induction l with
  | nil => intro b r h; right; simpa only [minLoop] using h
  | cons x xs ih =>
    intro b r h
    cases hx : price x with
    | none =>
      simp only [minLoop, hx] at h
      exact ih b r h
    | some px =>
      have adopt : minLoop price (some x) xs = some r → (price r).isSome = true := by
        intro h2
        rcases ih (some x) r h2 with hs | hb
        · exact hs
        · have hxr := Option.some.inj hb
          subst hxr
          rw [hx]; rfl
      cases b with
      | none =>
        simp only [minLoop, hx] at h
        exact Or.inl (adopt h)
      | some bb =>
        cases hbb : price bb with
        | none =>
          simp only [minLoop, hx, hbb] at h
          exact Or.inl (adopt h)
        | some qb =>
          simp only [minLoop, hx, hbb] at h
          by_cases hlt : px < qb
          · rw [if_pos hlt] at h; exact Or.inl (adopt h)
          · rw [if_neg hlt] at h
            rcases ih (some bb) r h with hs | hb
            · exact Or.inl hs
            · have hbr := Option.some.inj hb
              subst hbr
              left; rw [hbb]; rfl

/-! ## Hotel preference filtering (src/main.py lines 297-306)

Python truthiness matters throughout: a preference field that is `None`,
`0`, `0.0` or `[]` is falsy and disables its filter; inside an active
filter, `h.rating` / `h.price` / `h.amenities` must themselves be truthy
(non-null and nonzero / nonempty) for the hotel to pass. -/

/-- `h.rating and h.rating >= star_rating`. -/
def ratingKeep (sr : ℤ) (h : HotelInfo) : Bool :=
  match h.rating with
  | some r => decide (r ≠ 0) && decide ((sr : ℚ) ≤ r)
  | Option.none => false

/-- `h.price and h.price <= max_price_per_night`. -/
def priceKeep (m : ℚ) (h : HotelInfo) : Bool :=
  match h.price with
  | some p => decide (p ≠ 0) && decide (p ≤ m)
  | Option.none => false

/-- `h.amenities and all(a in h.amenities for a in prefs.amenities)`. -/
def amenitiesKeep (req : List String) (h : HotelInfo) : Bool :=
  match h.amenities with
  | some am => decide (am ≠ []) && req.all (fun a => am.contains a)
  | Option.none => false

/-- `if req.hotel_preferences.star_rating:` — the filter runs only when the
field is truthy (non-null and nonzero). -/
def starStage (sro : Option ℤ) (l : List HotelInfo) : List HotelInfo :=
  match sro with
  | some sr => if sr ≠ 0 then l.filter (ratingKeep sr) else l
  | Option.none => l

/-- `if req.hotel_preferences.max_price_per_night:` — truthiness-guarded. -/
def priceStage (mo : Option ℚ) (l : List HotelInfo) : List HotelInfo :=
  match mo with
  | some m => if m ≠ 0 then l.filter (priceKeep m) else l
  | Option.none => l

/-- `if req.hotel_preferences.amenities:` — truthiness-guarded (an empty
required list is falsy). -/
def amenitiesStage (ao : Option (List String)) (l : List HotelInfo) : List HotelInfo :=
  match ao with
  | some req => if req ≠ [] then l.filter (amenitiesKeep req) else l
  | Option.none => l

/-- The three sequential truthiness-guarded filters applied to the hotel
list when `req.hotel_preferences` is set (src/main.py lines 298-305). -/
def filterHotels (prefs : Option HotelPreferences) (hotels : List HotelInfo) : List HotelInfo :=
  match prefs with
  | Option.none => hotels
  | some p =>
    amenitiesStage p.amenities (priceStage p.max_price_per_night (starStage p.star_rating hotels))

/-- The hotel filter as claimed by the specification text: keep exactly the
hotels whose rating is ≥ `star_rating` (when specified), whose price is
≤ `max_price_per_night` (when specified), and whose amenities contain every
required amenity (when specified; missing amenities data fails). -/
def claimKeep (p : HotelPreferences) (h : HotelInfo) : Bool :=
  (match p.star_rating with
   | some sr => match h.rating with
     | some r => decide ((sr : ℚ) ≤ r)
     | Option.none => false
   | Option.none => true) &&
  (match p.max_price_per_night with
   | some m => match h.price with
     | some pr => decide (pr ≤ m)
     | Option.none => false
   | Option.none => true) &&
  (match p.amenities with
   | some req => match h.amenities with
     | some am => req.all (fun a => am.contains a)
     | Option.none => false
   | Option.none => true)

/-- Hotel filtering exactly as the claim words it. -/
def filterHotelsClaim (p : HotelPreferences) (hotels : List HotelInfo) : List HotelInfo :=
  hotels.filter (claimKeep p)

/-! ## Trip planner (src/main.py lines 193-341) -/

/-- The three trip types tried for the return leg. -/
inductive TripType where
  | oneWay
  | roundTrip
  | multiCity
deriving DecidableEq

/-- `["one-way", "round-trip", "multi-city"]` in loop order. -/
def tripTypes : List TripType := [TripType.oneWay, TripType.roundTrip, TripType.multiCity]

/-- The `TripPlanRequest` pydantic model (src/main.py lines 93-110); dates
are day ordinals, already validated for format. -/
structure TripPlanRequest where
  origin : String
  destination : String
  depart_date : ℤ
  return_date : Option ℤ := Option.none
  adults : ℕ
  children : ℕ := 0
  hotel_preferences : Option HotelPreferences := Option.none
  max_total_budget : Option ℚ := Option.none
deriving DecidableEq

/-- Outcomes of the external collaborator calls made by `/trip/plan`: the
outbound `get_flights`, the per-trip-type return `get_flights`, and the
`get_hotels` call.  `Except.error` is a raised exception. -/
structure Env where
  outbound : Except String (List RawFlight)
  ret : TripType → Except String (List RawFlight)
  hotels : Except String (List HotelInfo)

/-- The `breakdown` dict of the response (src/main.py lines 322-328). -/
structure Breakdown where
  flight : ℚ
  hotel : ℚ
  nights : ℤ
  adults : ℕ
  children : ℕ
deriving DecidableEq

/-- The `TripPlanResponse` pydantic model (src/main.py lines 112-119). -/
structure TripPlanResponse where
  best_outbound_flight : Option FlightInfo := Option.none
  best_return_flight : Option FlightInfo := Option.none
  best_hotel : Option HotelInfo := Option.none
  total_estimated_cost : ℚ
  per_person_per_day : Option ℚ := Option.none
  breakdown : Breakdown
  suggestions : Option String := Option.none
deriving DecidableEq

/-- HTTP error raised by `/trip/plan`. -/
inductive PlanError where
  | e502 (detail : String)
  | e400 (detail : String)
deriving DecidableEq

/-- The fixed advisory string (src/main.py line 331). -/
def advisory : String :=
  "Consider adjusting your dates, reducing hotel star rating, or increasing your budget."

/-- A whole search leg: collaborator outcome, then the list comprehension
mapping every raw item through `mkFlightInfo` (first raise aborts). -/
def normalizeLeg (raw : Except String (List RawFlight)) : Except String (List FlightInfo) :=
  match raw with
  | Except.error e => Except.error e
  | Except.ok fs => fs.mapM mkFlightInfo

/-- `candidate.price < best_price` where `best_price` starts at `inf`
(`Option.none`). -/
def ltBest (p : ℚ) : Option ℚ → Bool
  | Option.none => true
  | some q => decide (p < q)

/-- One iteration of the return-leg loop (src/main.py lines 238-270): a
failed variant leaves the state unchanged; otherwise the per-variant best
is compared against the running `best_price` by strict `<`. -/
def retStep (acc : Option FlightInfo × Option ℚ) (res : Except String (List FlightInfo)) :
    Option FlightInfo × Option ℚ :=
  match res with
  | Except.error _ => acc
  | Except.ok fs =>
    match bestBy flightPrice fs with
    | Option.none => acc
    | some c =>
      match c.price with
      | Option.none => acc
      | some p => if ltBest p acc.2 then (some c, some p) else acc

/-- The full return-leg loop over the three trip types, starting from
`best_return_flight = None`, `best_price = inf`. -/
def bestReturnLoop (renv : TripType → Except String (List FlightInfo)) : Option FlightInfo :=
  (tripTypes.foldl (fun acc t => retStep acc (renv t)) (Option.none, Option.none)).1

/-- `best_return_flight`: `None` when no `return_date`, otherwise the loop
result. -/
def retSel (req : TripPlanRequest) (env : Env) : Option FlightInfo :=
  match req.return_date with
  | Option.none => Option.none
  | some _ => bestReturnLoop (fun t => normalizeLeg (env.ret t))

/-- `nights` (src/main.py line 317): pandas day difference when
`return_date` is supplied, else 1. -/
def nightsOf (req : TripPlanRequest) : ℤ :=
  match req.return_date with
  | some r => r - req.depart_date
  | Option.none => 1

/-- `adults + children` as a rational factor. -/
def paxOf (req : TripPlanRequest) : ℚ := (req.adults : ℚ) + (req.children : ℚ)

/-- One flight's contribution to `total_flight_cost` (src/main.py lines
313-316): added only when the selected flight exists AND its price is
truthy (non-null and nonzero). -/
def flightCostTerm (pax : ℚ) : Option FlightInfo → ℚ
  | some f =>
    match f.price with
    | some p => if p = 0 then 0 else p * pax
    | Option.none => 0
  | Option.none => 0

/-- `total_hotel_cost` (src/main.py line 318): `price * nights` when the
selected hotel exists and its price is truthy, else 0. -/
def hotelCostTerm (nights : ℤ) : Option HotelInfo → ℚ
  | some h =>
    match h.price with
    | some p => if p = 0 then 0 else p * (nights : ℚ)
    | Option.none => 0
  | Option.none => 0

/-- Cost aggregation and response assembly (src/main.py lines 312-341). -/
def computeCosts (req : TripPlanRequest) (bo br : Option FlightInfo) (bh : Option HotelInfo) :
    TripPlanResponse :=
  let flightCost := flightCostTerm (paxOf req) bo + flightCostTerm (paxOf req) br
  let nights := nightsOf req
  let hotelCost := hotelCostTerm nights bh
  let total := flightCost + hotelCost
  { best_outbound_flight := bo
    best_return_flight := br
    best_hotel := bh
    total_estimated_cost := total
    per_person_per_day :=
      if 0 < nights ∧ 0 < req.adults + req.children
      then some (total / (paxOf req * (nights : ℚ)))
      else Option.none
    breakdown := { flight := flightCost, hotel := hotelCost, nights := nights,
                   adults := req.adults, children := req.children }
    suggestions :=
      match req.max_total_budget with
      | some b => if b ≠ 0 ∧ b < total then some advisory else Option.none
      | Option.none => Option.none }

/-- The `/trip/plan` handler (src/main.py lines 193-346).  An outbound-leg
exception (collaborator call or comprehension) is re-raised as a 502 with
the "Outbound flight search failed" detail before any hotel work; a
hotel-leg exception becomes the "Hotel search failed" 502; return-leg
exceptions are swallowed per variant inside `retSel`. -/
def planTrip (req : TripPlanRequest) (env : Env) : Except PlanError TripPlanResponse :=
  match normalizeLeg env.outbound with
  | Except.error e => Except.error (PlanError.e502 ("Outbound flight search failed: " ++ e))
  | Except.ok outFlights =>
    match env.hotels with
    | Except.error e => Except.error (PlanError.e502 ("Hotel search failed: " ++ e))
    | Except.ok hotels =>
      Except.ok (computeCosts req (bestBy flightPrice outFlights) (retSel req env)
        (bestBy hotelPrice (filterHotels req.hotel_preferences hotels)))

/-- Per-variant candidate: the per-variant minimum-price flight of a
successful variant, nothing for a failed variant. -/
def candOf (renv : TripType → Except String (List FlightInfo)) (t : TripType) :
    Option FlightInfo :=
  match renv t with
  | Except.ok fs => bestBy flightPrice fs
  | Except.error _ => Option.none

/-- The candidates that feed the running minimum of the return-leg loop,
in variant order. -/
def collectCands (renv : TripType → Except String (List FlightInfo)) :
    List TripType → List FlightInfo
  | [] => []
  | t :: ts =>
    match candOf renv t with
    | some c => c :: collectCands renv ts
    | Option.none => collectCands renv ts

/-- The per-variant candidates of the three return variants, in order. -/
def returnCandidates (env : Env) : List FlightInfo :=
  collectCands (fun t => normalizeLeg (env.ret t)) tripTypes

lemma collectCands_cons_none {renv : TripType → Except String (List FlightInfo)}
    {t : TripType} (ts : List TripType) (h : candOf renv t = Option.none) :
    collectCands renv (t :: ts) = collectCands renv ts := by
  simp [collectCands, h]

lemma collectCands_cons_some {renv : TripType → Except String (List FlightInfo)}
    {t : TripType} {c : FlightInfo} (ts : List TripType) (h : candOf renv t = some c) :
    collectCands renv (t :: ts) = c :: collectCands renv ts := by
  simp [collectCands, h]

lemma retStep_cand_none {renv : TripType → Except String (List FlightInfo)} {t : TripType}
    (acc : Option FlightInfo × Option ℚ) (h : candOf renv t = Option.none) :
    retStep acc (renv t) = acc := by
  unfold candOf at h
  cases hR : renv t with
  | error e => rfl
  | ok fs =>
    rw [hR] at h
    simp only at h
    simp [retStep, h]

lemma retStep_cand_some_none {renv : TripType → Except String (List FlightInfo)} {t : TripType}
    {c : FlightInfo} (acc : Option FlightInfo × Option ℚ) (h : candOf renv t = some c)
    (hc : c.price = Option.none) :
    retStep acc (renv t) = acc := by
  unfold candOf at h
  cases hR : renv t with
  | error e => rfl
  | ok fs =>
    rw [hR] at h
    simp only at h
    simp [retStep, h, hc]

lemma retStep_cand_some_some {renv : TripType → Except String (List FlightInfo)} {t : TripType}
    {c : FlightInfo} {p : ℚ} (acc : Option FlightInfo × Option ℚ) (h : candOf renv t = some c)
    (hc : c.price = some p) :
    retStep acc (renv t) = if ltBest p acc.2 then (some c, some p) else acc := by
  unfold candOf at h
  cases hR : renv t with
  | error e => rw [hR] at h; exact Option.noConfusion h
  | ok fs =>
    rw [hR] at h
    simp only at h
    simp [retStep, h, hc]

lemma retFold_eq_minLoop (renv : TripType → Except String (List FlightInfo)) :
    ∀ (ts : List TripType) (acc : Option FlightInfo × Option ℚ),
      acc.2 = acc.1.bind FlightInfo.price →
      (ts.foldl (fun a t => retStep a (renv t)) acc).1
        = minLoop flightPrice acc.1 (collectCands renv ts) := by
  intro ts
  induction ts with
  | nil => intro acc hacc; simp [minLoop, collectCands]
  | cons t ts ih =>
    intro acc hacc
    rw [List.foldl_cons]
    cases hC : candOf renv t with
    | none =>
      rw [retStep_cand_none acc hC, collectCands_cons_none ts hC]
      exact ih acc hacc
    | some c =>
      rw [collectCands_cons_some ts hC]
      cases hc : c.price with
      | none =>
        rw [retStep_cand_some_none acc hC hc]
        have hmn : ∀ (b : Option FlightInfo),
            minLoop flightPrice b (c :: collectCands renv ts)
              = minLoop flightPrice b (collectCands renv ts) := by
          intro b
          cases b with
          | none => simp only [minLoop, flightPrice, hc]
          | some bb => simp only [minLoop, flightPrice, hc]
        rw [hmn]
        exact ih acc hacc
      | some p =>
        rw [retStep_cand_some_some acc hC hc, hacc]
        cases hb : acc.1 with
        | none =>
          have hlb : ltBest p (Option.bind Option.none FlightInfo.price) = true := rfl
          rw [hlb, if_pos rfl]
          have hmn : minLoop flightPrice Option.none (c :: collectCands renv ts)
              = minLoop flightPrice (some c) (collectCands renv ts) := by
            simp only [minLoop, flightPrice, hc]
          rw [hmn]
          exact ih (some c, some p) (by simp [hc])
        | some bf =>
          have hbind : Option.bind (some bf) FlightInfo.price = bf.price := rfl
          rw [hbind]
          cases hbf : bf.price with
          | none =>
            have hlb : ltBest p Option.none = true := rfl
            rw [hlb, if_pos rfl]
            have hmn : minLoop flightPrice (some bf) (c :: collectCands renv ts)
                = minLoop flightPrice (some c) (collectCands renv ts) := by
              simp only [minLoop, flightPrice, hc, hbf]
            rw [hmn]
            exact ih (some c, some p) (by simp [hc])
          | some q =>
            by_cases hlt : p < q
            · have hlb : ltBest p (some q) = true := by simp [ltBest, hlt]
              rw [hlb, if_pos rfl]
              have hmn : minLoop flightPrice (some bf) (c :: collectCands renv ts)
                  = minLoop flightPrice (some c) (collectCands renv ts) := by
                simp only [minLoop, flightPrice, hc, hbf]
                rw [if_pos hlt]
              rw [hmn]
              exact ih (some c, some p) (by simp [hc])
            · have hlb : ltBest p (some q) = false := by simp [ltBest, hlt]
              rw [hlb]
              simp only [Bool.false_eq_true, if_false]
              have hmn : minLoop flightPrice (some bf) (c :: collectCands renv ts)
                  = minLoop flightPrice (some bf) (collectCands renv ts) := by
                simp only [minLoop, flightPrice, hc, hbf]
                rw [if_neg hlt]
              rw [hmn]
              have hrec := ih acc hacc
              rw [hb] at hrec
              exact hrec

lemma bestReturnLoop_eq (env : Env) :
    bestReturnLoop (fun t => normalizeLeg (env.ret t))
      = bestBy flightPrice (returnCandidates env) := by
  unfold bestReturnLoop bestBy returnCandidates
  exact retFold_eq_minLoop (fun t => normalizeLeg (env.ret t)) tripTypes
    (Option.none, Option.none) rfl

lemma planTrip_ok_inv {req : TripPlanRequest} {env : Env} {resp : TripPlanResponse}
    (h : planTrip req env = Except.ok resp) :
    ∃ outFs hotels, normalizeLeg env.outbound = Except.ok outFs ∧ env.hotels = Except.ok hotels ∧
      resp = computeCosts req (bestBy flightPrice outFs) (retSel req env)
        (bestBy hotelPrice (filterHotels req.hotel_preferences hotels)) := by
  unfold planTrip at h
  cases ho : normalizeLeg env.outbound with
  | error e => rw [ho] at h; exact Except.noConfusion h
  | ok outFs =>
    rw [ho] at h
    cases hh : env.hotels with
    | error e => rw [hh] at h; exact Except.noConfusion h
    | ok hotels =>
      rw [hh] at h
      exact ⟨outFs, hotels, rfl, rfl, (Except.ok.inj h).symm⟩

/-- Flight-cost contribution exactly as the claim words it: price times
passenger count whenever the selected flight has a non-null price. -/
def perPassengerCost (pax : ℚ) : Option FlightInfo → ℚ
  | some f =>
    match f.price with
    | some p => p * pax
    | Option.none => 0
  | Option.none => 0

/-- Hotel cost exactly as the claim words it: price times nights whenever
the selected hotel has a non-null price, else 0. -/
def perNightCost (nights : ℤ) : Option HotelInfo → ℚ
  | some h =>
    match h.price with
    | some p => p * (nights : ℚ)
    | Option.none => 0
  | Option.none => 0

lemma flightCostTerm_eq (pax : ℚ) (of : Option FlightInfo) :
    flightCostTerm pax of = perPassengerCost pax of := by
  cases of with
  | none => rfl
  | some f =>
    cases hp : f.price with
    | none => simp [flightCostTerm, perPassengerCost, hp]
    | some p =>
      by_cases h0 : p = 0
      · simp [flightCostTerm, perPassengerCost, hp, h0]
      · simp [flightCostTerm, perPassengerCost, hp, h0]

lemma hotelCostTerm_eq (nights : ℤ) (oh : Option HotelInfo) :
    hotelCostTerm nights oh = perNightCost nights oh := by
  cases oh with
  | none => rfl
  | some h =>
    cases hp : h.price with
    | none => simp [hotelCostTerm, perNightCost, hp]
    | some p =>
      by_cases h0 : p = 0
      · simp [hotelCostTerm, perNightCost, hp, h0]
      · simp [hotelCostTerm, perNightCost, hp, h0]

/-! ## Claim theorems -/

/-- C5: Best-by-price flight selection: for every list of normalized flight
records, the selected record is the minimum-price record among those with a
non-null price, with ties broken by first occurrence in the collaborator's
order (every earlier record with a price is strictly more expensive); a
list whose prices are all null yields no selection. -/
theorem best_by_price_selection (fs : List FlightInfo) :
    (bestBy flightPrice fs = Option.none ↔ ∀ f ∈ fs, f.price = Option.none)
    ∧ (∀ b, bestBy flightPrice fs = some b →
        b ∈ fs ∧ ∃ p, b.price = some p
          ∧ (∀ f ∈ fs, ∀ q, f.price = some q → p ≤ q)
          ∧ ∃ l₁ l₂, fs = l₁ ++ b :: l₂ ∧ ∀ f ∈ l₁, ∀ q, f.price = some q → p < q) := by
  constructor
  · have h := minLoop_eq_none_iff flightPrice fs Option.none
    unfold bestBy
    rw [h]
    simp [flightPrice]
  · intro b hb
    have hps := minLoop_price_isSome flightPrice fs Option.none b hb
    have hsome : (flightPrice b).isSome := by
      rcases hps with h | h
      · exact h
      · exact Option.noConfusion h
    obtain ⟨p, hp⟩ := Option.isSome_iff_exists.mp hsome
    have hmin := minLoop_min flightPrice fs Option.none b p hb hp
    have hfirst := minLoop_first flightPrice fs Option.none b p hb hp
    rcases hfirst with h | ⟨l₁, l₂, hsplit, hstrict, -⟩
    · exact absurd h (by simp)
    refine ⟨?_, p, hp, ?_, l₁, l₂, hsplit, ?_⟩
    · rw [hsplit]
      exact List.mem_append_right _ (List.mem_cons_self b l₂)
    · intro f hf q hq
      exact hmin.1 f hf q hq
    · intro f hf q hq
      exact hstrict f hf q hq

/-- The flight list with prices [200, null, 150, 300] from the spec's
testable property. -/
def c5Flights : List FlightInfo :=
  [{ name := "A", departure := "d1", arrival := "a1", price := some 200 },
   { name := "B", departure := "d2", arrival := "a2", price := Option.none },
   { name := "C", departure := "d3", arrival := "a3", price := some 150 },
   { name := "D", departure := "d4", arrival := "a4", price := some 300 }]

/-- The 150-priced record of `c5Flights`. -/
def c5Best : FlightInfo :=
  { name := "C", departure := "d3", arrival := "a3", price := some 150 }

theorem best_by_price_selection_witness :
    bestBy flightPrice c5Flights = some c5Best ∧ c5Best.price = some 150 ∧
    (c5Best ∈ c5Flights ∧ ∃ p, c5Best.price = some p
      ∧ (∀ f ∈ c5Flights, ∀ q, f.price = some q → p ≤ q)
      ∧ ∃ l₁ l₂, c5Flights = l₁ ++ c5Best :: l₂ ∧ ∀ f ∈ l₁, ∀ q, f.price = some q → p < q) := by
  have hsel : bestBy flightPrice c5Flights = some c5Best := by
    norm_num [c5Flights, c5Best, bestBy, minLoop, flightPrice, ltBest]
  exact ⟨hsel, rfl, (best_by_price_selection c5Flights).2 c5Best hsel⟩

lemma mem_starStage (sro : Option ℤ) (l : List HotelInfo) (x : HotelInfo) :
    x ∈ starStage sro l ↔
      x ∈ l ∧ (∀ sr, sro = some sr → sr ≠ 0 → ratingKeep sr x = true) := by
  cases sro with
  | none => simp [starStage]
  | some sr =>
    by_cases h0 : sr = 0
    · subst h0
      simp [starStage]
    · simp [starStage, h0, List.mem_filter]

lemma mem_priceStage (mo : Option ℚ) (l : List HotelInfo) (x : HotelInfo) :
    x ∈ priceStage mo l ↔
      x ∈ l ∧ (∀ m, mo = some m → m ≠ 0 → priceKeep m x = true) := by
  cases mo with
  | none => simp [priceStage]
  | some m =>
    by_cases h0 : m = 0
    · subst h0
      simp [priceStage]
    · simp [priceStage, h0, List.mem_filter]

lemma mem_amenitiesStage (ao : Option (List String)) (l : List HotelInfo) (x : HotelInfo) :
    x ∈ amenitiesStage ao l ↔
      x ∈ l ∧ (∀ req, ao = some req → req ≠ [] → amenitiesKeep req x = true) := by
  cases ao with
  | none => simp [amenitiesStage]
  | some req =>
    by_cases h0 : req = []
    · subst h0
      simp [amenitiesStage]
    · simp [amenitiesStage, h0, List.mem_filter]

/-- C3 (amended): hotel preference filtering in the trip planner keeps
exactly the hotels passing each active filter, where a filter is active only
when its preference field is truthy (non-null and nonzero / nonempty), and a
hotel passes the rating / price filter only when its own rating / price is
truthy (non-null and nonzero) and satisfies the comparison, and passes the
amenities filter only when its amenities list is present, nonempty, and
contains every required amenity. -/
theorem hotel_filter_membership (p : HotelPreferences) (hotels : List HotelInfo) (h : HotelInfo) :
    h ∈ filterHotels (some p) hotels ↔
      h ∈ hotels
      ∧ (∀ sr, p.star_rating = some sr → sr ≠ 0 →
          ∃ r, h.rating = some r ∧ r ≠ 0 ∧ (sr : ℚ) ≤ r)
      ∧ (∀ m, p.max_price_per_night = some m → m ≠ 0 →
          ∃ pr, h.price = some pr ∧ pr ≠ 0 ∧ pr ≤ m)
      ∧ (∀ req, p.amenities = some req → req ≠ [] →
          ∃ am, h.amenities = some am ∧ am ≠ [] ∧ ∀ a ∈ req, a ∈ am) := by
  have hrk : ∀ sr : ℤ, ratingKeep sr h = true ↔
      (∃ r, h.rating = some r ∧ r ≠ 0 ∧ (sr : ℚ) ≤ r) := by
    intro sr
    cases hr : h.rating with
    | none => simp [ratingKeep, hr]
    | some r => simp [ratingKeep, hr]
  have hpk : ∀ m : ℚ, priceKeep m h = true ↔
      (∃ pr, h.price = some pr ∧ pr ≠ 0 ∧ pr ≤ m) := by
    intro m
    cases hp : h.price with
    | none => simp [priceKeep, hp]
    | some pr => simp [priceKeep, hp]
  have hak : ∀ req : List String, amenitiesKeep req h = true ↔
      (∃ am, h.amenities = some am ∧ am ≠ [] ∧ ∀ a ∈ req, a ∈ am) := by
    intro req
    cases ha : h.amenities with
    | none => simp [amenitiesKeep, ha]
    | some am => simp [amenitiesKeep, ha, List.all_eq_true]
  show h ∈ amenitiesStage p.amenities (priceStage p.max_price_per_night
      (starStage p.star_rating hotels)) ↔ _
  rw [mem_amenitiesStage, mem_priceStage, mem_starStage]
  simp only [hrk, hpk, hak]
  tauto

/-- Preferences with only `max_price_per_night = 150` set. -/
def c3CexPrefs : HotelPreferences := { max_price_per_night := some 150 }

/-- A hotel whose price is present but `0.0` — falsy in Python. -/
def c3CexHotel : HotelInfo := { name := "Z", price := some 0 }

/-- C3 counterexample: the claim says a hotel is kept exactly when its price
is ≤ the specified `max_price_per_night`; the hotel priced 0 ≤ 150 should be
kept, but the code's truthiness test `h.price and ...` drops it. -/
theorem hotel_filter_claim_counterexample :
    filterHotels (some c3CexPrefs) [c3CexHotel] = []
    ∧ filterHotelsClaim c3CexPrefs [c3CexHotel] = [c3CexHotel]
    ∧ c3CexHotel.price = some 0 ∧ (0 : ℚ) ≤ 150 := by
  refine ⟨?_, ?_, rfl, by norm_num⟩
  · norm_num [filterHotels, amenitiesStage, priceStage, starStage, priceKeep,
      c3CexPrefs, c3CexHotel, List.filter]
  · norm_num [filterHotelsClaim, claimKeep, c3CexPrefs, c3CexHotel, List.filter]

/-- The hotel of the spec's testable property: rating 3, price 120,
amenities ["Wi-Fi"]. -/
def c3Hotel : HotelInfo :=
  { name := "H", price := some 120, rating := some 3, amenities := some ["Wi-Fi"] }

/-- Preferences requiring star rating 4. -/
def c3Prefs4 : HotelPreferences := { star_rating := some 4 }

/-- Preferences star rating 3, max price 150, amenities ["Wi-Fi"]. -/
def c3Prefs3 : HotelPreferences :=
  { star_rating := some 3, max_price_per_night := some 150, amenities := some ["Wi-Fi"] }

theorem hotel_filter_membership_witness :
    c3Hotel ∉ filterHotels (some c3Prefs4) [c3Hotel]
    ∧ c3Hotel ∈ filterHotels (some c3Prefs3) [c3Hotel] := by
  constructor
  · intro hmem
    have h := (hotel_filter_membership c3Prefs4 [c3Hotel] c3Hotel).mp hmem
    rcases h.2.1 4 rfl (by decide) with ⟨r, hr, -, hle⟩
    have hr3 : (3 : ℚ) = r := Option.some.inj hr
    rw [← hr3] at hle
    norm_num at hle
  · refine (hotel_filter_membership c3Prefs3 [c3Hotel] c3Hotel).mpr
      ⟨List.mem_cons_self _ _, ?_, ?_, ?_⟩
    · intro sr hsr hne
      cases Option.some.inj hsr
      exact ⟨3, rfl, by norm_num, by norm_num⟩
    · intro m hm hne
      cases Option.some.inj hm
      exact ⟨120, rfl, by norm_num, by norm_num⟩
    · intro req hreq hne
      cases Option.some.inj hreq
      exact ⟨["Wi-Fi"], rfl, by simp, by simp⟩

/-- C2: the spec requires the normalization helpers to be total, but
`_parse_price` raises: on the string `","` the regex matches the run `","`,
comma stripping leaves `""`, and `float("")` raises `ValueError`, which
nothing catches.  (`_parse_stops`, by contrast, wraps its body in
`try/except` and is total by construction in this embedding.) -/
theorem parse_price_raises_on_separator_string :
    _parse_price (PyVal.str ",") = Except.error "ValueError" := by decide

/-- C6 counterexample: the claim says every non-numeric, non-string input
yields null, but `_parse_price` returns any non-string input unchanged — an
arbitrary object (list/dict) passes through as itself, not as null. -/
theorem parse_price_passthrough_counterexample :
    _parse_price PyVal.other = Except.ok PyVal.other
    ∧ Except.ok PyVal.other ≠ (Except.ok PyVal.none : Except String PyVal) := by
  constructor
  · rfl
  · decide

/-- C6 (amended): `_parse_price` value mapping — every non-string input is
returned unchanged (so `None` maps to null and numbers pass through); a
string with no `[\d,.]` character maps to null; `"$1,234.50"` parses to
1234.50; the remaining claim examples hold as stated. -/
theorem parse_price_value_mapping :
    (∀ v : PyVal, (∀ s, v ≠ PyVal.str s) → _parse_price v = Except.ok v)
    ∧ (∀ s : String, (∀ c ∈ s.toList, numChar c = false) →
        _parse_price (PyVal.str s) = Except.ok PyVal.none)
    ∧ _parse_price (PyVal.str "$1,234.50") = Except.ok (PyVal.float (1234.5 : ℚ))
    ∧ _parse_price (PyVal.int 42) = Except.ok (PyVal.int 42)
    ∧ _parse_price (PyVal.str "N/A") = Except.ok PyVal.none
    ∧ _parse_price PyVal.none = Except.ok PyVal.none := by
  refine ⟨?_, ?_, ?_, rfl, by decide, rfl⟩
  · intro v hv
    cases v with
    | str s => exact absurd rfl (hv s)
    | none => rfl
    | int n => rfl
    | float q => rfl
    | other => rfl
  · intro s hs
    have hd : s.toList.dropWhile (fun c => ! numChar c) = [] := by
      rw [List.dropWhile_eq_nil_iff]
      intro x hx
      simp [hs x hx]
    have hrun : firstNumRun s = Option.none := by
      unfold firstNumRun
      rw [hd]
      simp
    simp [_parse_price, hrun]
  · have h1 : firstNumRun "$1,234.50" = some ['1', ',', '2', '3', '4', '.', '5', '0'] := by decide
    have h2 : digitsToNat ['1', '2', '3', '4'] = 1234 := by decide
    have h3 : digitsToNat ['5', '0'] = 50 := by decide
    simp +decide [_parse_price, h1, parseFloat?, h2, h3]
    norm_num

theorem parse_price_value_mapping_witness :
    _parse_price (PyVal.int 7) = Except.ok (PyVal.int 7)
    ∧ _parse_price (PyVal.str "xyz") = Except.ok PyVal.none :=
  ⟨parse_price_value_mapping.1 (PyVal.int 7) (fun s h => PyVal.noConfusion h),
   parse_price_value_mapping.2.1 "xyz" (by decide)⟩

lemma parseFloat?_nonneg (l : List Char) (q : ℚ) (h : parseFloat? l = some q) : 0 ≤ q := by
  unfold parseFloat? at h
  split at h
  · cases Option.some.inj h
    have h10 : (0 : ℚ) ≤ 10 := by norm_num
    exact add_nonneg (Nat.cast_nonneg _)
      (div_nonneg (Nat.cast_nonneg _) (pow_nonneg h10 _))
  · exact Option.noConfusion h

lemma parse_price_str_cases (s : String) (pv : PyVal)
    (h : _parse_price (PyVal.str s) = Except.ok pv) :
    pv = PyVal.none ∨ ∃ q, pv = PyVal.float q ∧ 0 ≤ q := by
  simp only [_parse_price] at h
  cases hr : firstNumRun s with
  | none =>
    rw [hr] at h
    simp only at h
    left
    exact (Except.ok.inj h).symm
  | some run =>
    rw [hr] at h
    simp only at h
    cases hpf : parseFloat? (run.filter (fun c => c ≠ ',')) with
    | none => rw [hpf] at h; exact Except.noConfusion h
    | some q =>
      rw [hpf] at h
      right
      exact ⟨q, (Except.ok.inj h).symm, parseFloat?_nonneg _ q hpf⟩

/-- A raw flight whose collaborator-supplied price is already the float
-5.0: `_parse_price` passes it through unchanged. -/
def c8Raw : RawFlight :=
  { name := "F", departure := "d", arrival := "a", price := PyVal.float (-5) }

/-- C8 counterexample: the constructed record's price after normalization is
-5, a negative value, because non-string raw prices pass through
`_parse_price` unmodified. -/
theorem flight_price_negative_passthrough_counterexample :
    (mkFlightInfo c8Raw).map FlightInfo.price = Except.ok (some (-5 : ℚ))
    ∧ (-5 : ℚ) < 0 := by
  constructor
  · rfl
  · norm_num

/-- C8 (amended): a price normalized from a TEXTUAL raw value is, when
present, non-negative (the regex captures no sign), and an absent raw price
stays absent; numeric raw values pass through unchanged and are not forced
non-negative. -/
theorem flight_price_nonneg_for_string_inputs :
    ∀ (rf : RawFlight) (fi : FlightInfo), mkFlightInfo rf = Except.ok fi →
      ((∃ s, rf.price = PyVal.str s) → ∀ p, fi.price = some p → 0 ≤ p)
      ∧ (rf.price = PyVal.none → fi.price = Option.none) := by
  intro rf fi hmk
  constructor
  · rintro ⟨s, hs⟩ p hp
    unfold mkFlightInfo at hmk
    rw [hs] at hmk
    cases hpp : _parse_price (PyVal.str s) with
    | error e => rw [hpp] at hmk; exact Except.noConfusion hmk
    | ok pv =>
      rw [hpp] at hmk
      simp only at hmk
      rcases parse_price_str_cases s pv hpp with rfl | ⟨q, rfl, hq⟩
      · simp only [pyToOptFloat] at hmk
        have hfi := Except.ok.inj hmk
        subst hfi
        exact Option.noConfusion hp
      · simp only [pyToOptFloat] at hmk
        have hfi := Except.ok.inj hmk
        subst hfi
        have hqp : q = p := Option.some.inj hp
        rw [← hqp]
        exact hq
  · intro hs
    unfold mkFlightInfo at hmk
    rw [hs] at hmk
    simp only [_parse_price, pyToOptFloat] at hmk
    have hfi := Except.ok.inj hmk
    subst hfi
    rfl

/-- A raw flight whose price is the string "300". -/
def c8RawS : RawFlight :=
  { name := "F", departure := "d", arrival := "a", price := PyVal.str "300" }

/-- The record `mkFlightInfo` builds from `c8RawS`. -/
def c8Info : FlightInfo :=
  { name := "F", departure := "d", arrival := "a", price := some 300 }

theorem flight_price_nonneg_witness :
    mkFlightInfo c8RawS = Except.ok c8Info ∧ (0 : ℚ) ≤ 300 := by
  have hmk : mkFlightInfo c8RawS = Except.ok c8Info := by
    have h1 : firstNumRun "300" = some ['3', '0', '0'] := by decide
    have h2 : digitsToNat ['3', '0', '0'] = 300 := by decide
    simp +decide [mkFlightInfo, c8RawS, c8Info, _parse_price, h1, parseFloat?, h2,
      pyToOptFloat, _parse_stops, stopsToOpt]
  refine ⟨hmk, ?_⟩
  exact (flight_price_nonneg_for_string_inputs c8RawS c8Info hmk).1 ⟨"300", rfl⟩ 300 rfl

lemma computeCosts_bo (req : TripPlanRequest) (bo br : Option FlightInfo) (bh : Option HotelInfo) :
    (computeCosts req bo br bh).best_outbound_flight = bo := rfl

lemma computeCosts_br (req : TripPlanRequest) (bo br : Option FlightInfo) (bh : Option HotelInfo) :
    (computeCosts req bo br bh).best_return_flight = br := rfl

lemma computeCosts_bh (req : TripPlanRequest) (bo br : Option FlightInfo) (bh : Option HotelInfo) :
    (computeCosts req bo br bh).best_hotel = bh := rfl

lemma computeCosts_flight (req : TripPlanRequest) (bo br : Option FlightInfo)
    (bh : Option HotelInfo) :
    (computeCosts req bo br bh).breakdown.flight
      = flightCostTerm (paxOf req) bo + flightCostTerm (paxOf req) br := rfl

lemma computeCosts_nights (req : TripPlanRequest) (bo br : Option FlightInfo)
    (bh : Option HotelInfo) :
    (computeCosts req bo br bh).breakdown.nights = nightsOf req := rfl

lemma computeCosts_hotel (req : TripPlanRequest) (bo br : Option FlightInfo)
    (bh : Option HotelInfo) :
    (computeCosts req bo br bh).breakdown.hotel = hotelCostTerm (nightsOf req) bh := rfl

lemma computeCosts_total (req : TripPlanRequest) (bo br : Option FlightInfo)
    (bh : Option HotelInfo) :
    (computeCosts req bo br bh).total_estimated_cost
      = (computeCosts req bo br bh).breakdown.flight
        + (computeCosts req bo br bh).breakdown.hotel := rfl

lemma computeCosts_ppd (req : TripPlanRequest) (bo br : Option FlightInfo)
    (bh : Option HotelInfo) :
    (computeCosts req bo br bh).per_person_per_day
      = if 0 < nightsOf req ∧ 0 < req.adults + req.children
        then some ((computeCosts req bo br bh).total_estimated_cost
          / (paxOf req * (nightsOf req : ℚ)))
        else Option.none := rfl

lemma computeCosts_sugg (req : TripPlanRequest) (bo br : Option FlightInfo)
    (bh : Option HotelInfo) :
    (computeCosts req bo br bh).suggestions
      = match req.max_total_budget with
        | some b =>
          if b ≠ 0 ∧ b < (computeCosts req bo br bh).total_estimated_cost
          then some advisory else Option.none
        | Option.none => Option.none := rfl

/-- C1: trip-plan cost aggregation — `flight_cost` is the sum of
price × (adults + children) over the selected outbound and return flights
with a non-null price; `nights` is the day difference when `return_date` is
supplied and 1 otherwise (the fixed 1 covers the one-way/same-day trip with
no return date); `hotel_cost` is the selected hotel's price × nights (0 when
no hotel or no price); `total_estimated_cost = flight_cost + hotel_cost`;
and `per_person_per_day = total / ((adults+children) × nights)` exactly when
both factors are positive, omitted otherwise. -/
theorem trip_plan_cost_aggregation (req : TripPlanRequest) (env : Env) (resp : TripPlanResponse)
    (h : planTrip req env = Except.ok resp) :
    resp.breakdown.flight =
        perPassengerCost (paxOf req) resp.best_outbound_flight
          + perPassengerCost (paxOf req) resp.best_return_flight
    ∧ (∀ r, req.return_date = some r → resp.breakdown.nights = r - req.depart_date)
    ∧ (req.return_date = Option.none → resp.breakdown.nights = 1)
    ∧ resp.breakdown.hotel = perNightCost resp.breakdown.nights resp.best_hotel
    ∧ resp.total_estimated_cost = resp.breakdown.flight + resp.breakdown.hotel
    ∧ (resp.per_person_per_day = Option.none ↔
        ¬(0 < resp.breakdown.nights ∧ 0 < req.adults + req.children))
    ∧ ((0 < resp.breakdown.nights ∧ 0 < req.adults + req.children) →
        resp.per_person_per_day =
          some (resp.total_estimated_cost / (paxOf req * (resp.breakdown.nights : ℚ)))) := by
  obtain ⟨outFs, hotels, ho, hh, hresp⟩ := planTrip_ok_inv h
  subst hresp
  refine ⟨?_, ?_, ?_, ?_, ?_, ?_, ?_⟩
  · rw [computeCosts_flight, computeCosts_bo, computeCosts_br,
      flightCostTerm_eq, flightCostTerm_eq]
  · intro r hr
    rw [computeCosts_nights]
    unfold nightsOf
    rw [hr]
  · intro hr
    rw [computeCosts_nights]
    unfold nightsOf
    rw [hr]
  · rw [computeCosts_hotel, computeCosts_nights, computeCosts_bh, hotelCostTerm_eq]
  · exact computeCosts_total req _ _ _
  · rw [computeCosts_ppd, computeCosts_nights]
    by_cases hc : 0 < nightsOf req ∧ 0 < req.adults + req.children
    · simp [hc]
    · simp [hc]
  · intro hc
    rw [computeCosts_nights] at hc
    rw [computeCosts_ppd, computeCosts_nights, if_pos hc]

/-- Raw collaborator flight priced 300.0. -/
def c1Raw : RawFlight := { name := "F", departure := "d", arrival := "a", price := PyVal.float 300 }

/-- The normalized record of `c1Raw`. -/
def c1F : FlightInfo := { name := "F", departure := "d", arrival := "a", price := some 300 }

/-- A hotel priced 100 per night. -/
def c1H : HotelInfo := { name := "H", price := some 100 }

/-- Request: 2 adults, depart day 0, return day 3. -/
def c1Req : TripPlanRequest :=
  { origin := "LHR", destination := "CDG", depart_date := 0, return_date := some 3, adults := 2 }

/-- Environment: every flight call returns the 300-priced flight, the hotel
call returns the 100-priced hotel. -/
def c1Env : Env :=
  { outbound := Except.ok [c1Raw], ret := fun _ => Except.ok [c1Raw],
    hotels := Except.ok [c1H] }

/-- The response the planner computes for `c1Req`/`c1Env`. -/
def c1Resp : TripPlanResponse := computeCosts c1Req (some c1F) (some c1F) (some c1H)

lemma c1_mk : mkFlightInfo c1Raw = Except.ok c1F := by
  simp [mkFlightInfo, c1Raw, c1F, _parse_price, pyToOptFloat, _parse_stops, stopsToOpt]

lemma except_bind_ok {ε α β : Type} (a : α) (f : α → Except ε β) :
    (Except.ok a >>= f : Except ε β) = f a := rfl

lemma except_pure_eq {ε α : Type} (a : α) : (pure a : Except ε α) = Except.ok a := rfl

lemma c1_norm : normalizeLeg (Except.ok [c1Raw]) = Except.ok [c1F] := by
  simp [normalizeLeg, List.mapM, List.mapM.loop, c1_mk, except_bind_ok, except_pure_eq]

lemma c1_bestOut : bestBy flightPrice [c1F] = some c1F := by
  simp [bestBy, minLoop, flightPrice, c1F]

lemma c1_retSel : retSel c1Req c1Env = some c1F := by
  have hstep1 : retStep (Option.none, Option.none) (Except.ok [c1F]) = (some c1F, some 300) := by
    norm_num [retStep, bestBy, minLoop, flightPrice, c1F, ltBest]
  have hstep2 : retStep (some c1F, some 300) (Except.ok [c1F]) = (some c1F, some 300) := by
    norm_num [retStep, bestBy, minLoop, flightPrice, c1F, ltBest]
  have hnr : ∀ t, normalizeLeg (c1Env.ret t) = Except.ok [c1F] := by
    intro t
    simp [c1Env, c1_norm]
  simp [retSel, c1Req, bestReturnLoop, tripTypes, hnr, hstep1, hstep2]

lemma c1_bestH : bestBy hotelPrice (filterHotels c1Req.hotel_preferences [c1H]) = some c1H := by
  simp [c1Req, filterHotels, bestBy, minLoop, hotelPrice, c1H]

lemma c1_plan_eval : planTrip c1Req c1Env = Except.ok c1Resp := by
  have hout : normalizeLeg c1Env.outbound = Except.ok [c1F] := by
    simp [c1Env, c1_norm]
  have hh : c1Env.hotels = Except.ok [c1H] := rfl
  simp [planTrip, hout, hh, c1_bestOut, c1_retSel, c1_bestH, c1Resp]

theorem trip_plan_cost_aggregation_witness :
    planTrip c1Req c1Env = Except.ok c1Resp
    ∧ c1Resp.breakdown.flight = 1200 ∧ c1Resp.breakdown.hotel = 300
    ∧ c1Resp.breakdown.nights = 3 ∧ c1Resp.total_estimated_cost = 1500
    ∧ c1Resp.per_person_per_day = some 250
    ∧ c1Resp.breakdown.flight =
        perPassengerCost (paxOf c1Req) c1Resp.best_outbound_flight
          + perPassengerCost (paxOf c1Req) c1Resp.best_return_flight := by
  refine ⟨c1_plan_eval, ?_, ?_, ?_, ?_, ?_,
    (trip_plan_cost_aggregation c1Req c1Env c1Resp c1_plan_eval).1⟩
  · norm_num [c1Resp, computeCosts_flight, flightCostTerm, paxOf, c1Req, c1F]
  · norm_num [c1Resp, computeCosts_hotel, hotelCostTerm, nightsOf, c1Req, c1H]
  · norm_num [c1Resp, computeCosts_nights, nightsOf, c1Req]
  · norm_num [c1Resp, computeCosts_total, computeCosts_flight, computeCosts_hotel,
      flightCostTerm, hotelCostTerm, paxOf, nightsOf, c1Req, c1F, c1H]
  · norm_num [c1Resp, computeCosts_ppd, computeCosts_total, computeCosts_flight,
      computeCosts_hotel, flightCostTerm, hotelCostTerm, paxOf, nightsOf, c1Req, c1F, c1H]

/-- C9 (amended): the advisory string is attached exactly when
`max_total_budget` is supplied, TRUTHY (nonzero), and exceeded by the total;
a supplied budget of 0 is falsy and disables the advisory.  The suggestions
field never holds any other string. -/
theorem trip_plan_advisory_characterization (req : TripPlanRequest) (env : Env)
    (resp : TripPlanResponse) (h : planTrip req env = Except.ok resp) :
    (resp.suggestions = some advisory ↔
      ∃ b, req.max_total_budget = some b ∧ b ≠ 0 ∧ b < resp.total_estimated_cost)
    ∧ (resp.suggestions = Option.none ∨ resp.suggestions = some advisory) := by
  obtain ⟨outFs, hotels, ho, hh, hresp⟩ := planTrip_ok_inv h
  subst hresp
  cases hb : req.max_total_budget with
  | none =>
    constructor
    · simp [computeCosts_sugg, hb]
    · left
      simp [computeCosts_sugg, hb]
  | some b =>
    by_cases h0 : b = 0
    · subst h0
      constructor
      · simp [computeCosts_sugg, hb]
      · left
        simp [computeCosts_sugg, hb]
    · by_cases hlt : b < (computeCosts req (bestBy flightPrice outFs) (retSel req env)
          (bestBy hotelPrice (filterHotels req.hotel_preferences hotels))).total_estimated_cost
      · constructor
        · simp [computeCosts_sugg, hb, h0, hlt]
        · right
          simp [computeCosts_sugg, hb, h0, hlt]
      · constructor
        · simp [computeCosts_sugg, hb, h0, hlt]
        · left
          simp [computeCosts_sugg, hb, h0, hlt]

/-- Request with a supplied but zero budget. -/
def c9Req : TripPlanRequest :=
  { origin := "A", destination := "B", depart_date := 0, adults := 1,
    max_total_budget := some 0 }

/-- Environment: outbound returns the 300-priced flight, no hotels. -/
def c9Env : Env :=
  { outbound := Except.ok [c1Raw], ret := fun _ => Except.ok [],
    hotels := Except.ok [] }

/-- The planner's response for `c9Req`/`c9Env`. -/
def c9Resp : TripPlanResponse := computeCosts c9Req (some c1F) Option.none Option.none

lemma c9_plan_eval : planTrip c9Req c9Env = Except.ok c9Resp := by
  simp [planTrip, c9Env, c1_norm, c9Resp, retSel, c9Req, bestBy, minLoop, flightPrice,
    hotelPrice, filterHotels, c1F]

/-- C9 counterexample: budget supplied as 0, total 300 exceeds it, yet the
code attaches no advisory because `if req.max_total_budget:` is falsy at 0 —
the claim as stated requires the advisory whenever the budget is supplied
and exceeded. -/
theorem trip_plan_advisory_zero_budget_counterexample :
    planTrip c9Req c9Env = Except.ok c9Resp
    ∧ c9Req.max_total_budget = some 0
    ∧ (0 : ℚ) < c9Resp.total_estimated_cost
    ∧ c9Resp.suggestions = Option.none := by
  refine ⟨c9_plan_eval, rfl, ?_, ?_⟩
  · norm_num [c9Resp, computeCosts_total, computeCosts_flight, computeCosts_hotel,
      flightCostTerm, hotelCostTerm, paxOf, nightsOf, c9Req, c1F]
  · simp [c9Resp, computeCosts_sugg, c9Req]

theorem trip_plan_advisory_characterization_witness :
    c9Resp.suggestions = Option.none ∨ c9Resp.suggestions = some advisory :=
  (trip_plan_advisory_characterization c9Req c9Env c9Resp c9_plan_eval).2

/-- C10: the planner does not validate `return_date` against `depart_date`;
`nights` is the raw day difference with no lower bound when `return_date`
is supplied: a same-day return gives `nights = 0` (hotel cost 0 and
`per_person_per_day` omitted even when a hotel is selected), and an earlier
return is accepted and gives negative nights, so a positively priced
selected hotel REDUCES the total below the flight cost. -/
theorem trip_plan_nights_unvalidated (req : TripPlanRequest) (env : Env)
    (resp : TripPlanResponse) (r : ℤ)
    (h : planTrip req env = Except.ok resp) (hr : req.return_date = some r) :
    resp.breakdown.nights = r - req.depart_date
    ∧ (r = req.depart_date →
        resp.breakdown.nights = 0 ∧ resp.breakdown.hotel = 0
          ∧ resp.per_person_per_day = Option.none)
    ∧ (r < req.depart_date →
        resp.breakdown.nights < 0
        ∧ ∀ h2 p, resp.best_hotel = some h2 → h2.price = some p → 0 < p →
            resp.total_estimated_cost < resp.breakdown.flight) := by
  obtain ⟨outFs, hotels, ho, hh, hresp⟩ := planTrip_ok_inv h
  subst hresp
  have hN : nightsOf req = r - req.depart_date := by
    unfold nightsOf
    rw [hr]
  refine ⟨?_, ?_, ?_⟩
  · rw [computeCosts_nights, hN]
  · intro heq
    have h0 : nightsOf req = 0 := by rw [hN, heq, sub_self]
    refine ⟨?_, ?_, ?_⟩
    · rw [computeCosts_nights, h0]
    · rw [computeCosts_hotel, h0]
      have hzero : ∀ oh : Option HotelInfo, hotelCostTerm 0 oh = 0 := by
        intro oh
        cases oh with
        | none => rfl
        | some h2 =>
          cases hp : h2.price with
          | none => simp [hotelCostTerm, hp]
          | some p =>
            by_cases h0p : p = 0
            · simp [hotelCostTerm, hp, h0p]
            · simp [hotelCostTerm, hp, h0p]
      exact hzero _
    · rw [computeCosts_ppd]
      simp [h0]
  · intro hlt
    have hneg : nightsOf req < 0 := by rw [hN]; omega
    refine ⟨?_, ?_⟩
    · rw [computeCosts_nights]
      exact hneg
    · intro h2 p hbh hp hpos
      rw [computeCosts_bh] at hbh
      rw [computeCosts_total, computeCosts_hotel, hbh]
      have hne : p ≠ 0 := ne_of_gt hpos
      have hcast : ((nightsOf req : ℤ) : ℚ) < 0 := by exact_mod_cast hneg
      have hterm : hotelCostTerm (nightsOf req) (some h2) = p * ((nightsOf req : ℤ) : ℚ) := by
        simp [hotelCostTerm, hp, hne]
      rw [hterm]
      have hneg2 : p * ((nightsOf req : ℤ) : ℚ) < 0 := mul_neg_of_pos_of_neg hpos hcast
      linarith

/-- The hotel selected in the C10 scenarios. -/
def c10H : HotelInfo := { name := "H", price := some 100 }

/-- Same-day trip: depart day 5, return day 5. -/
def c10Req : TripPlanRequest :=
  { origin := "A", destination := "B", depart_date := 5, return_date := some 5, adults := 1 }

/-- Inverted trip: depart day 5, return day 3 — accepted by the code. -/
def c10ReqB : TripPlanRequest :=
  { origin := "A", destination := "B", depart_date := 5, return_date := some 3, adults := 1 }

/-- Environment with no flights and the 100-priced hotel. -/
def c10Env : Env :=
  { outbound := Except.ok [], ret := fun _ => Except.ok [], hotels := Except.ok [c10H] }

/-- Response for the same-day request. -/
def c10Resp : TripPlanResponse := computeCosts c10Req Option.none Option.none (some c10H)

/-- Response for the inverted request. -/
def c10RespB : TripPlanResponse := computeCosts c10ReqB Option.none Option.none (some c10H)

lemma c10_norm_nil : normalizeLeg (Except.ok ([] : List RawFlight))
    = Except.ok ([] : List FlightInfo) := by
  simp [normalizeLeg, List.mapM, List.mapM.loop, except_pure_eq]

lemma c10_plan_evalA : planTrip c10Req c10Env = Except.ok c10Resp := by
  simp [planTrip, c10Env, c10_norm_nil, c10Resp, retSel, c10Req, bestReturnLoop, tripTypes,
    retStep, bestBy, minLoop, flightPrice, hotelPrice, filterHotels, c10H]

lemma c10_plan_evalB : planTrip c10ReqB c10Env = Except.ok c10RespB := by
  simp [planTrip, c10Env, c10_norm_nil, c10RespB, retSel, c10ReqB, bestReturnLoop, tripTypes,
    retStep, bestBy, minLoop, flightPrice, hotelPrice, filterHotels, c10H]

theorem trip_plan_nights_unvalidated_witness :
    planTrip c10Req c10Env = Except.ok c10Resp
    ∧ c10Resp.best_hotel = some c10H
    ∧ c10Resp.breakdown.nights = 0 ∧ c10Resp.breakdown.hotel = 0
    ∧ c10Resp.per_person_per_day = Option.none
    ∧ planTrip c10ReqB c10Env = Except.ok c10RespB
    ∧ c10RespB.breakdown.nights < 0
    ∧ c10RespB.total_estimated_cost < c10RespB.breakdown.flight := by
  have hA := trip_plan_nights_unvalidated c10Req c10Env c10Resp 5 c10_plan_evalA rfl
  have hB := trip_plan_nights_unvalidated c10ReqB c10Env c10RespB 3 c10_plan_evalB rfl
  obtain ⟨hn0, hh0, hppd⟩ := hA.2.1 rfl
  obtain ⟨hnneg, hfar⟩ := hB.2.2 (by norm_num [c10ReqB])
  exact ⟨c10_plan_evalA, rfl, hn0, hh0, hppd, c10_plan_evalB, hnneg,
    hfar c10H 100 rfl rfl (by norm_num)⟩

/-- C4: return-leg search — when `return_date` is absent, `best_return` is
omitted without error; when present, the loop walks the fixed variant list
`[one-way, round-trip, multi-city]`, a failed variant only contributes no
candidate (never failing the plan), and `best_return` is the first global
minimum-price candidate across the successful variants (strict `<`
comparison keeps the first minimum on ties); moreover the plan succeeds for
EVERY behavior of the return collaborator. -/
theorem trip_plan_return_leg_selection (req : TripPlanRequest) (env : Env)
    (resp : TripPlanResponse) (h : planTrip req env = Except.ok resp) :
    (req.return_date = Option.none → resp.best_return_flight = Option.none)
    ∧ (∀ r, req.return_date = some r →
        resp.best_return_flight = bestBy flightPrice (returnCandidates env)
        ∧ (∀ b, resp.best_return_flight = some b →
            b ∈ returnCandidates env ∧ ∃ p, b.price = some p
              ∧ (∀ c ∈ returnCandidates env, ∀ q, c.price = some q → p ≤ q)
              ∧ ∃ l₁ l₂, returnCandidates env = l₁ ++ b :: l₂
                  ∧ ∀ c ∈ l₁, ∀ q, c.price = some q → p < q))
    ∧ (∀ renv2, ∃ resp2, planTrip req { env with ret := renv2 } = Except.ok resp2) := by
  obtain ⟨outFs, hotels, ho, hh, hresp⟩ := planTrip_ok_inv h
  subst hresp
  refine ⟨?_, ?_, ?_⟩
  · intro hr
    rw [computeCosts_br]
    unfold retSel
    rw [hr]
  · intro r hr
    have hsel : retSel req env = bestBy flightPrice (returnCandidates env) := by
      unfold retSel
      rw [hr]
      exact bestReturnLoop_eq env
    constructor
    · rw [computeCosts_br, hsel]
    · intro b hb
      rw [computeCosts_br, hsel] at hb
      have hps := minLoop_price_isSome flightPrice (returnCandidates env) Option.none b hb
      have hsome : (flightPrice b).isSome := by
        rcases hps with hs | hs
        · exact hs
        · exact Option.noConfusion hs
      obtain ⟨p, hp⟩ := Option.isSome_iff_exists.mp hsome
      have hmin := minLoop_min flightPrice (returnCandidates env) Option.none b p hb hp
      have hfirst := minLoop_first flightPrice (returnCandidates env) Option.none b p hb hp
      rcases hfirst with hs | ⟨l₁, l₂, hsplit, hstrict, -⟩
      · exact absurd hs (by simp)
      refine ⟨?_, p, hp, ?_, l₁, l₂, hsplit, ?_⟩
      · rw [hsplit]
        exact List.mem_append_right _ (List.mem_cons_self b l₂)
      · intro c hc q hq
        exact hmin.1 c hc q hq
      · intro c hc q hq
        exact hstrict c hc q hq
  · intro renv2
    refine ⟨computeCosts req (bestBy flightPrice outFs) (retSel req { env with ret := renv2 })
      (bestBy hotelPrice (filterHotels req.hotel_preferences hotels)), ?_⟩
    unfold planTrip
    have h1 : ({ env with ret := renv2 } : Env).outbound = env.outbound := rfl
    have h2 : ({ env with ret := renv2 } : Env).hotels = env.hotels := rfl
    rw [h1, ho, h2, hh]

/-- C7: trip-plan fatal-error semantics — an outbound-leg failure yields the
502 "Outbound flight search failed" error REGARDLESS of the hotel
collaborator's outcome (the hotel call can never influence the result, i.e.
it is never needed); a hotel-leg failure (with outbound ok) yields the 502
"Hotel search failed" error; and every error the planner can produce is one
of those two 502 forms. -/
theorem trip_plan_fatal_error_semantics (req : TripPlanRequest) (env : Env) :
    (∀ e, normalizeLeg env.outbound = Except.error e →
      ∀ hres, planTrip req { env with hotels := hres }
        = Except.error (PlanError.e502 ("Outbound flight search failed: " ++ e)))
    ∧ (∀ outFs e, normalizeLeg env.outbound = Except.ok outFs → env.hotels = Except.error e →
        planTrip req env = Except.error (PlanError.e502 ("Hotel search failed: " ++ e)))
    ∧ (∀ err, planTrip req env = Except.error err →
        (∃ e, err = PlanError.e502 ("Outbound flight search failed: " ++ e))
        ∨ (∃ e, err = PlanError.e502 ("Hotel search failed: " ++ e))) := by
  refine ⟨?_, ?_, ?_⟩
  · intro e he hres
    unfold planTrip
    have h1 : ({ env with hotels := hres } : Env).outbound = env.outbound := rfl
    rw [h1, he]
  · intro outFs e ho he
    unfold planTrip
    rw [ho, he]
  · intro err herr
    unfold planTrip at herr
    cases ho : normalizeLeg env.outbound with
    | error e =>
      rw [ho] at herr
      left
      exact ⟨e, (Except.error.inj herr).symm⟩
    | ok outFs =>
      rw [ho] at herr
      cases hh : env.hotels with
      | error e =>
        rw [hh] at herr
        right
        exact ⟨e, (Except.error.inj herr).symm⟩
      | ok hotels =>
        rw [hh] at herr
        exact Except.noConfusion herr

/-- Raw return flight priced 400.0. -/
def c4Raw400 : RawFlight := { name := "R", departure := "d", arrival := "a", price := PyVal.float 400 }

/-- Raw return flight priced 350.0. -/
def c4Raw350 : RawFlight := { name := "M", departure := "d", arrival := "a", price := PyVal.float 350 }

/-- Normalized 400-priced return flight. -/
def c4F400 : FlightInfo := { name := "R", departure := "d", arrival := "a", price := some 400 }

/-- Normalized 350-priced return flight. -/
def c4F350 : FlightInfo := { name := "M", departure := "d", arrival := "a", price := some 350 }

/-- Round trip request, return day 2. -/
def c4Req : TripPlanRequest :=
  { origin := "A", destination := "B", depart_date := 0, return_date := some 2, adults := 1 }

/-- Environment of the spec's testable property: the one-way return variant
fails, round-trip returns 400, multi-city returns 350. -/
def c4Env : Env :=
  { outbound := Except.ok [c1Raw],
    ret := fun t =>
      match t with
      | TripType.oneWay => Except.error "boom"
      | TripType.roundTrip => Except.ok [c4Raw400]
      | TripType.multiCity => Except.ok [c4Raw350],
    hotels := Except.ok [] }

/-- The planner's response for `c4Req`/`c4Env`. -/
def c4Resp : TripPlanResponse := computeCosts c4Req (some c1F) (some c4F350) Option.none

lemma c4_mk400 : mkFlightInfo c4Raw400 = Except.ok c4F400 := by
  simp [mkFlightInfo, c4Raw400, c4F400, _parse_price, pyToOptFloat, _parse_stops, stopsToOpt]

lemma c4_mk350 : mkFlightInfo c4Raw350 = Except.ok c4F350 := by
  simp [mkFlightInfo, c4Raw350, c4F350, _parse_price, pyToOptFloat, _parse_stops, stopsToOpt]

lemma c4_norm400 : normalizeLeg (Except.ok [c4Raw400]) = Except.ok [c4F400] := by
  simp [normalizeLeg, List.mapM, List.mapM.loop, c4_mk400, except_bind_ok, except_pure_eq]

lemma c4_norm350 : normalizeLeg (Except.ok [c4Raw350]) = Except.ok [c4F350] := by
  simp [normalizeLeg, List.mapM, List.mapM.loop, c4_mk350, except_bind_ok, except_pure_eq]

lemma c4_retSel : retSel c4Req c4Env = some c4F350 := by
  have hs1 : retStep (Option.none, Option.none) (normalizeLeg (c4Env.ret TripType.oneWay))
      = (Option.none, Option.none) := by
    simp [c4Env, normalizeLeg, retStep]
  have hs2 : retStep (Option.none, Option.none) (normalizeLeg (c4Env.ret TripType.roundTrip))
      = (some c4F400, some 400) := by
    have : normalizeLeg (c4Env.ret TripType.roundTrip) = Except.ok [c4F400] := by
      simp [c4Env, c4_norm400]
    norm_num [this, retStep, bestBy, minLoop, flightPrice, c4F400, ltBest]
  have hs3 : retStep (some c4F400, some 400) (normalizeLeg (c4Env.ret TripType.multiCity))
      = (some c4F350, some 350) := by
    have : normalizeLeg (c4Env.ret TripType.multiCity) = Except.ok [c4F350] := by
      simp [c4Env, c4_norm350]
    norm_num [this, retStep, bestBy, minLoop, flightPrice, c4F350, ltBest]
  simp [retSel, c4Req, bestReturnLoop, tripTypes, hs1, hs2, hs3]

lemma c4_plan_eval : planTrip c4Req c4Env = Except.ok c4Resp := by
  have hout : normalizeLeg c4Env.outbound = Except.ok [c1F] := by
    have h1 : c4Env.outbound = Except.ok [c1Raw] := rfl
    rw [h1, c1_norm]
  have hh : c4Env.hotels = Except.ok [] := rfl
  have hpref : c4Req.hotel_preferences = Option.none := rfl
  simp [planTrip, hout, hh, c4Resp, c4_retSel, hpref, bestBy, minLoop, flightPrice,
    hotelPrice, filterHotels, c1F]

theorem trip_plan_return_leg_selection_witness :
    planTrip c4Req c4Env = Except.ok c4Resp
    ∧ c4Resp.best_return_flight = some c4F350
    ∧ c4F350.price = some 350
    ∧ c4Resp.best_return_flight = bestBy flightPrice (returnCandidates c4Env) := by
  refine ⟨c4_plan_eval, rfl, rfl, ?_⟩
  exact ((trip_plan_return_leg_selection c4Req c4Env c4Resp c4_plan_eval).2.1 2 rfl).1

/-- Request used in the outbound-failure scenario. -/
def c7Req : TripPlanRequest :=
  { origin := "A", destination := "B", depart_date := 0, adults := 1 }

/-- Environment whose outbound collaborator call raises "boom". -/
def c7Env : Env :=
  { outbound := Except.error "boom", ret := fun _ => Except.ok [],
    hotels := Except.ok [] }

theorem trip_plan_fatal_error_semantics_witness :
    planTrip c7Req { c7Env with hotels := Except.ok [] }
      = Except.error (PlanError.e502 ("Outbound flight search failed: " ++ "boom")) :=
  (trip_plan_fatal_error_semantics c7Req c7Env).1 "boom" rfl (Except.ok [])
